/-
Verification of the budget analytics engine of the Expense Care app.

The engine lives in `src/utils/budgetCalculations.ts`, `src/utils/streakCalculations.ts`,
`src/utils/comparisonCalculations.ts`, `src/utils/dateHelpers.ts` and the forecast part of
`src/hooks/useThemeColors.ts`.  Amounts (JS numbers) are modelled as rationals.  A JS `Date`
is modelled as a local-calendar instant: a proleptic Gregorian civil date plus the
milliseconds elapsed since local midnight.  `Date` methods used by the code
(`getTime`, `getDate`, `getDay`, `setHours`, `setDate`, `setMonth`) are modelled on that
representation; day arithmetic (`setDate(getDate() + k)`) is day-stepping with calendar
normalization, exactly the JS semantics in a DST-free local timezone.
-/
import Mathlib

/-- A civil (local calendar) date: year, month (1-12), day of month (1-based). -/
structure CivilDate where
  year : Int
  month : Nat
  day : Nat
deriving DecidableEq

/-- Gregorian leap-year rule, as implemented by JS `Date`. -/
def isLeap (y : Int) : Prop := (y % 4 = 0 ∧ y % 100 ≠ 0) ∨ y % 400 = 0

instance (y : Int) : Decidable (isLeap y) := by unfold isLeap; infer_instance

/-- One in a leap year, zero otherwise. -/
def leapN (y : Int) : Int := if isLeap y then 1 else 0

/-- Number of days of month `m` of year `y` (0 for an out-of-range month). -/
def daysInMonth (y : Int) (m : Nat) : Nat :=
  if m = 1 then 31
  else if m = 2 then (if isLeap y then 29 else 28)
  else if m = 3 then 31
  else if m = 4 then 30
  else if m = 5 then 31
  else if m = 6 then 30
  else if m = 7 then 31
  else if m = 8 then 31
  else if m = 9 then 30
  else if m = 10 then 31
  else if m = 11 then 30
  else if m = 12 then 31
  else 0

/-- Days of year `y` that precede month `m`. -/
def doy (y : Int) (m : Nat) : Int :=
  if m = 1 then 0
  else if m = 2 then 31
  else if m = 3 then 59 + leapN y
  else if m = 4 then 90 + leapN y
  else if m = 5 then 120 + leapN y
  else if m = 6 then 151 + leapN y
  else if m = 7 then 181 + leapN y
  else if m = 8 then 212 + leapN y
  else if m = 9 then 243 + leapN y
  else if m = 10 then 273 + leapN y
  else if m = 11 then 304 + leapN y
  else if m = 12 then 334 + leapN y
  else 0

/-- Days from the epoch day 1970-01-01 to the first day of year `y` (negative before 1970). -/
def daysBeforeYear (y : Int) : Int :=
  365 * (y - 1970) + ((y - 1) / 4 - (y - 1) / 100 + (y - 1) / 400) - 477

/-- Day number of a civil date, with 1970-01-01 as day 0 (the JS epoch day). -/
def toDays (d : CivilDate) : Int :=
  daysBeforeYear d.year + doy d.year d.month + ((d.day : Int) - 1)

/-- A well-formed civil date: month in 1-12 and day within the month. -/
def ValidDate (d : CivilDate) : Prop :=
  1 ≤ d.month ∧ d.month ≤ 12 ∧ 1 ≤ d.day ∧ d.day ≤ daysInMonth d.year d.month

instance (d : CivilDate) : Decidable (ValidDate d) := by unfold ValidDate; infer_instance

/-- The calendar day before `d` (JS `setDate(getDate() - 1)` normalization). -/
def prevDay (d : CivilDate) : CivilDate :=
  if 1 < d.day then ⟨d.year, d.month, d.day - 1⟩
  else if 1 < d.month then ⟨d.year, d.month - 1, daysInMonth d.year (d.month - 1)⟩
  else ⟨d.year - 1, 12, 31⟩

/-- The calendar day after `d` (JS `setDate(getDate() + 1)` normalization). -/
def nextDay (d : CivilDate) : CivilDate :=
  if d.day < daysInMonth d.year d.month then ⟨d.year, d.month, d.day + 1⟩
  else if d.month < 12 then ⟨d.year, d.month + 1, 1⟩
  else ⟨d.year + 1, 1, 1⟩

/-- `d` stepped back `n` calendar days (JS `setDate(getDate() - n)`). -/
def subDaysC (d : CivilDate) : Nat → CivilDate
  | 0 => d
  | n + 1 => prevDay (subDaysC d n)

/-- `d` stepped forward `n` calendar days (JS `setDate(getDate() + n)`). -/
def addDaysC (d : CivilDate) : Nat → CivilDate
  | 0 => d
  | n + 1 => nextDay (addDaysC d n)

/-- `d` shifted by `k` calendar days, `k` possibly negative. -/
def addDays (d : CivilDate) (k : Int) : CivilDate :=
  if 0 ≤ k then addDaysC d k.toNat else subDaysC d (-k).toNat

/-- JS `Date.prototype.getDay`: 0 = Sunday .. 6 = Saturday (1970-01-01 was a Thursday). -/
def weekday (d : CivilDate) : Int := (toDays d + 4) % 7

/-- Lexicographic order on civil dates.  This models the `<` comparison of the
`YYYY-MM-DD` strings produced by `toDateKey` (faithful for four-digit years,
where the zero-padded string order is exactly this order). -/
def keyLt (a b : CivilDate) : Prop :=
  a.year < b.year ∨ (a.year = b.year ∧
    (a.month < b.month ∨ (a.month = b.month ∧ a.day < b.day)))

instance (a b : CivilDate) : Decidable (keyLt a b) := by unfold keyLt; infer_instance

/-- A JS `Date` value interpreted in local time: civil date plus milliseconds
since local midnight (in range `[0, 86400000)` for dates produced by the runtime). -/
structure DateTime where
  civil : CivilDate
  ms : Nat
deriving DecidableEq

/-- JS `Date.prototype.getTime` (milliseconds since the epoch, local model). -/
def DateTime.getTime (t : DateTime) : Int := toDays t.civil * 86400000 + (t.ms : Int)

/-- A `DateTime` as produced by the JS runtime: valid civil part, ms within the day. -/
def ValidDT (t : DateTime) : Prop := ValidDate t.civil ∧ t.ms < 86400000

instance (t : DateTime) : Decidable (ValidDT t) := by unfold ValidDT; infer_instance

-- ─── Domain types (src/types/index.ts) ───────────────────────────────────────

/-- All supported expense category keys (`CategoryKey` in `src/types/index.ts`). -/
inductive CategoryKey where
  | food | transport | shopping | entertainment | bills | health | education | other
deriving DecidableEq

/-- Expense document (`Expense` in `src/types/index.ts`); fields not used by the
analytics engine (`id`, `userId`, `budgetId`, `note`, `createdAt`) are carried verbatim. -/
structure Expense where
  id : String
  userId : String
  budgetId : String
  amount : ℚ
  category : CategoryKey
  note : String
  date : DateTime
  createdAt : DateTime
deriving DecidableEq

/-- Budget health status (`BudgetHealthStatus`). -/
inductive BudgetHealthStatus where
  | safe | warning | over
deriving DecidableEq

/-- Computed budget status for a single period (`BudgetStatus`). -/
structure BudgetStatus where
  totalSpent : ℚ
  remaining : ℚ
  percentUsed : ℚ
  status : BudgetHealthStatus
deriving DecidableEq

/-- Budget document (`Budget`); `weeklyLimit`/`monthlyLimit` are `number | null`,
modelled as `Option ℚ`. -/
structure Budget where
  id : String
  userId : String
  dailyLimit : ℚ
  weeklyLimit : Option ℚ
  monthlyLimit : Option ℚ
  currency : String
  startDate : DateTime
  endDate : DateTime
  isActive : Bool
deriving DecidableEq

/-- Budget status across all active periods (`AllBudgetStatuses`). -/
structure AllBudgetStatuses where
  daily : BudgetStatus
  weekly : Option BudgetStatus
  monthly : Option BudgetStatus
deriving DecidableEq

/-- Single category's aggregated spending (`CategorySummaryItem`). -/
structure CategorySummaryItem where
  category : CategoryKey
  amount : ℚ
  percent : ℚ
deriving DecidableEq

/-- Summary result for a time period (`PeriodSummary`). -/
structure PeriodSummary where
  total : ℚ
  categories : List CategorySummaryItem
deriving DecidableEq

/-- Result of the streak calculation (`StreakResult` in streakCalculations.ts). -/
structure StreakResult where
  streakDays : Nat
  isActiveToday : Bool
deriving DecidableEq

/-- Result of the monthly forecast (`ForecastResult` in useThemeColors.ts). -/
structure ForecastResult where
  totalSpent : ℚ
  projectedTotal : ℚ
  safeDailyLimit : ℚ
  status : BudgetHealthStatus
  currentBurnRate : ℚ
  daysElapsed : Int
  daysRemaining : Int
deriving DecidableEq

/-- One day of the 7-day comparison series (`DailySpending` in comparisonCalculations.ts). -/
structure DailySpending where
  date : DateTime
  dayLabel : String
  amount : ℚ
  isToday : Bool
deriving DecidableEq

-- ─── Date helpers (src/utils/dateHelpers.ts) ─────────────────────────────────

/-- `startOfDay`: copy the date, `setHours(0, 0, 0, 0)`. -/
def startOfDay (t : DateTime) : DateTime := ⟨t.civil, 0⟩

/-- `endOfDay`: copy the date, `setHours(23, 59, 59, 999)`. -/
def endOfDay (t : DateTime) : DateTime := ⟨t.civil, 86399999⟩

/-- `startOfWeek`: shift to the Monday of the week (`day === 0 ? -6 : 1 - day`),
then `setHours(0, 0, 0, 0)`. -/
def startOfWeek (t : DateTime) : DateTime :=
  let day := weekday t.civil
  let diff : Int := if day = 0 then -6 else 1 - day
  ⟨addDays t.civil diff, 0⟩

/-- `endOfWeek`: the start of the week plus 6 days, at `23:59:59.999`. -/
def endOfWeek (t : DateTime) : DateTime :=
  let start := startOfWeek t
  ⟨addDays start.civil 6, 86399999⟩

/-- `startOfMonth`: `setDate(1)` then `setHours(0, 0, 0, 0)`. -/
def startOfMonth (t : DateTime) : DateTime := ⟨⟨t.civil.year, t.civil.month, 1⟩, 0⟩

/-- `setMonth(getMonth() + 1, 0)`: day 0 of the next month normalizes to the
last day of the current month, i.e. the day before day 1 of the next month. -/
def endOfMonthDay (d : CivilDate) : CivilDate :=
  prevDay (if d.month = 12 then ⟨d.year + 1, 1, 1⟩ else ⟨d.year, d.month + 1, 1⟩)

/-- `endOfMonth`: `setMonth(getMonth() + 1, 0)` then `setHours(23, 59, 59, 999)`. -/
def endOfMonth (t : DateTime) : DateTime := ⟨endOfMonthDay t.civil, 86399999⟩

-- ─── Budget status (src/utils/budgetCalculations.ts) ─────────────────────────

/-- `BUDGET_WARNING_THRESHOLD` from `src/constants/config.ts`. -/
def BUDGET_WARNING_THRESHOLD : ℚ := 80

/-- `getHealthStatus`: health classification of a percent-used value. -/
def getHealthStatus (percentUsed : ℚ) : BudgetHealthStatus :=
  if percentUsed ≥ 100 then .over
  else if percentUsed ≥ BUDGET_WARNING_THRESHOLD then .warning
  else .safe

/-- `getBudgetStatus`: status for a limit and the expenses of the period. -/
def getBudgetStatus (limit : ℚ) (expenses : List Expense) : BudgetStatus :=
  if limit ≤ 0 then ⟨0, 0, 0, .safe⟩
  else
    let totalSpent := expenses.foldl (fun sum expense => sum + expense.amount) 0
    let remaining := limit - totalSpent
    let percentUsed := totalSpent / limit * 100
    ⟨totalSpent, remaining, percentUsed, getHealthStatus percentUsed⟩

/-- `filterExpensesByDateRange`: expenses with timestamp in `[start, end]`. -/
def filterExpensesByDateRange (expenses : List Expense) (start «end» : DateTime) :
    List Expense :=
  let startTime := start.getTime
  let endTime := «end».getTime
  expenses.filter (fun expense =>
    decide (startTime ≤ expense.date.getTime) && decide (expense.date.getTime ≤ endTime))

/-- JS truthiness of a `number | null` value (`null` and `0` are falsy). -/
def truthy (x : Option ℚ) : Bool :=
  match x with
  | none => false
  | some v => decide (v ≠ 0)

/-- `getAllBudgetStatuses`: per-period statuses; `now` models `new Date()`. -/
def getAllBudgetStatuses (budget : Budget) (expenses : List Expense) (now : DateTime) :
    AllBudgetStatuses :=
  let todayExpenses := filterExpensesByDateRange expenses (startOfDay now) (endOfDay now)
  let weekExpenses := filterExpensesByDateRange expenses (startOfWeek now) (endOfWeek now)
  let monthExpenses := filterExpensesByDateRange expenses (startOfMonth now) (endOfMonth now)
  { daily := getBudgetStatus budget.dailyLimit todayExpenses
    weekly :=
      if truthy budget.weeklyLimit then
        some (getBudgetStatus (budget.weeklyLimit.getD 0) weekExpenses)
      else none
    monthly :=
      if truthy budget.monthlyLimit then
        some (getBudgetStatus (budget.monthlyLimit.getD 0) monthExpenses)
      else none }

-- ─── Category summary (src/utils/budgetCalculations.ts) ──────────────────────

/-- The key set of the JS `Map` built by `getCategorySummary`, in insertion
order: first occurrence order of the categories of the list. -/
def categoryKeys (expenses : List Expense) : List CategoryKey :=
  expenses.foldl
    (fun ks expense => if expense.category ∈ ks then ks else ks ++ [expense.category]) []

/-- The value stored in that `Map` for key `c` after the full pass:
the accumulated amount of the expenses of category `c`. -/
def categoryAmount (expenses : List Expense) (c : CategoryKey) : ℚ :=
  expenses.foldl (fun current expense =>
    if expense.category = c then current + expense.amount else current) 0

/-- `getCategorySummary`: per-category totals for a day-granular date range,
sorted by amount descending. -/
def getCategorySummary (expenses : List Expense) (startDate endDate : DateTime) :
    PeriodSummary :=
  let filtered := filterExpensesByDateRange expenses (startOfDay startDate) (endOfDay endDate)
  if filtered.length = 0 then ⟨0, []⟩
  else
    let total := filtered.foldl (fun sum expense => sum + expense.amount) 0
    let categories :=
      ((categoryKeys filtered).map (fun category =>
        CategorySummaryItem.mk category (categoryAmount filtered category)
          (if 0 < total then categoryAmount filtered category / total * 100 else 0))).insertionSort
        (fun a b => b.amount ≤ a.amount)
    ⟨total, categories⟩

-- ─── Streak calculation (src/utils/streakCalculations.ts) ────────────────────

/-- `toDateKey`: the `YYYY-MM-DD` grouping key of a `Date`, modelled as its
civil date (keys compare by `keyLt`, the model of the string order). -/
def toDateKey (t : DateTime) : CivilDate := t.civil

/-- The `dailyTotals` map built by both `calculateBudgetStreak` and
`getLast7DaysSpending`: `dailyTotals.set(key, (dailyTotals.get(key) ?? 0) + amount)`
folded over the expense list, read back at key `k` (0 when absent). -/
def dayTotal (expenses : List Expense) (k : CivilDate) : ℚ :=
  expenses.foldl (fun totals expense =>
    fun key => if key = toDateKey expense.date then totals key + expense.amount else totals key)
    (fun _ => 0) k

/-- One iteration test of the backward walk of `calculateBudgetStreak` at day
offset `i` from today: false exactly when the loop body hits a `break`. -/
def streakOk (expenses : List Expense) (dailyLimit : ℚ) (startKey today : CivilDate)
    (i : Nat) : Bool :=
  let dateKey := subDaysC today i
  if keyLt dateKey startKey then false
  else if dailyLimit < dayTotal expenses dateKey then false
  else true

/-- The `for` loop of `calculateBudgetStreak`: starting at offset `i` with
`fuel` iterations left, the number of consecutive offsets that pass `ok`. -/
def streakLoop (ok : Nat → Bool) : Nat → Nat → Nat
  | _, 0 => 0
  | i, fuel + 1 => if ok i then streakLoop ok (i + 1) fuel + 1 else 0

/-- `calculateBudgetStreak`; `today` models `new Date()`. -/
def calculateBudgetStreak (expenses : List Expense) (dailyLimit : ℚ)
    (budgetStartDate : DateTime) (today : DateTime) (maxLookbackDays : Nat := 365) :
    StreakResult :=
  if dailyLimit ≤ 0 then ⟨0, false⟩
  else
    let startKey := toDateKey budgetStartDate
    let streakDays :=
      streakLoop (streakOk expenses dailyLimit startKey (toDateKey today)) 0 maxLookbackDays
    let todayTotal := dayTotal expenses (toDateKey today)
    let isActiveToday := decide (todayTotal ≤ dailyLimit)
    ⟨streakDays, isActiveToday⟩

-- ─── Comparison series (src/utils/comparisonCalculations.ts) ─────────────────

/-- Short weekday names produced by `toLocaleDateString('en-US', weekday short)`. -/
def weekdayName (w : Int) : String :=
  if w = 0 then "Sun"
  else if w = 1 then "Mon"
  else if w = 2 then "Tue"
  else if w = 3 then "Wed"
  else if w = 4 then "Thu"
  else if w = 5 then "Fri"
  else "Sat"

/-- `getLast7DaysSpending`: the loop runs `i = 6, 5, ..., 0`, pushing the day
`i` days before today; `today` models `new Date()` (its time of day is kept by
`setDate`, only the civil date changes). -/
def getLast7DaysSpending (expenses : List Expense) (today : DateTime) :
    List DailySpending :=
  (List.range 7).map (fun j =>
    let i := 6 - j
    let dateCivil := subDaysC today.civil i
    let amount := dayTotal expenses dateCivil
    let dayLabel := if i = 0 then "Today" else weekdayName (weekday dateCivil)
    DailySpending.mk ⟨dateCivil, today.ms⟩ dayLabel amount (i = 0))

-- ─── Monthly forecast (src/hooks/useThemeColors.ts) ──────────────────────────

/-- `calculateMonthlyForecast`: linear projection of the month's spending. -/
def calculateMonthlyForecast (expenses : List Expense) (monthlyLimit : ℚ)
    (referenceDate : DateTime) : ForecastResult :=
  let monthStart := startOfMonth referenceDate
  let monthEnd := endOfMonth referenceDate
  let monthExpenses := expenses.filter (fun e =>
    decide (monthStart.getTime ≤ e.date.getTime) && decide (e.date.getTime ≤ monthEnd.getTime))
  let totalSpent := monthExpenses.foldl (fun sum e => sum + e.amount) 0
  let totalDaysInMonth : Int := (monthEnd.civil.day : Int)
  let currentDayOfMonth : Int := (referenceDate.civil.day : Int)
  let daysElapsed := currentDayOfMonth
  let daysRemaining := totalDaysInMonth - daysElapsed
  let currentBurnRate : ℚ := if 0 < daysElapsed then totalSpent / (daysElapsed : ℚ) else 0
  let projectedTotal := totalSpent + currentBurnRate * (daysRemaining : ℚ)
  let remainingBudget := monthlyLimit - totalSpent
  let safeDailyLimit :=
    if remainingBudget ≤ 0 then 0
    else if 0 < daysRemaining then remainingBudget / (daysRemaining : ℚ)
    else remainingBudget
  let status : BudgetHealthStatus :=
    if monthlyLimit < projectedTotal then .over
    else if monthlyLimit * (9 / 10) < projectedTotal then .warning
    else .safe
  ⟨totalSpent, projectedTotal, safeDailyLimit, status, currentBurnRate, daysElapsed,
    daysRemaining⟩

-- ─── Calendar lemmas ─────────────────────────────────────────────────────────

theorem leapN_cases (y : Int) : leapN y = 0 ∨ leapN y = 1 := by
  unfold leapN; split_ifs <;> simp

theorem daysBeforeYear_succ (y : Int) :
    daysBeforeYear (y + 1) = daysBeforeYear y + 365 + leapN y := by
  unfold daysBeforeYear leapN isLeap
  split_ifs with h <;> omega

theorem daysBeforeYear_mono {y z : Int} (h : y ≤ z) :
    daysBeforeYear y ≤ daysBeforeYear z := by
  unfold daysBeforeYear; omega

theorem doy_day_bounds (y : Int) (m d : Nat) (hm1 : 1 ≤ m) (hm2 : m ≤ 12)
    (hd1 : 1 ≤ d) (hd2 : d ≤ daysInMonth y m) :
    0 ≤ doy y m + ((d : Int) - 1) ∧ doy y m + ((d : Int) - 1) ≤ 364 + leapN y := by
  interval_cases m <;>
    unfold doy daysInMonth leapN at * <;> norm_num at * <;>
    split_ifs at * <;> omega

theorem daysInMonth_pos (y : Int) (m : Nat) (hm1 : 1 ≤ m) (hm2 : m ≤ 12) :
    1 ≤ daysInMonth y m := by
  interval_cases m <;> unfold daysInMonth <;> norm_num <;> split_ifs <;> omega

theorem valid_prevDay (d : CivilDate) (h : ValidDate d) : ValidDate (prevDay d) := by
  obtain ⟨y, m, dd⟩ := d
  obtain ⟨hm1, hm2, hd1, hd2⟩ := h
  unfold prevDay ValidDate
  split_ifs with h1 h2 <;> dsimp only at *
  · exact ⟨hm1, hm2, by omega, by omega⟩
  · exact ⟨by omega, by omega, daysInMonth_pos y (m - 1) (by omega) (by omega), le_refl _⟩
  · refine ⟨by omega, by omega, by omega, ?_⟩
    unfold daysInMonth; norm_num

theorem valid_nextDay (d : CivilDate) (h : ValidDate d) : ValidDate (nextDay d) := by
  obtain ⟨y, m, dd⟩ := d
  obtain ⟨hm1, hm2, hd1, hd2⟩ := h
  unfold nextDay ValidDate
  split_ifs with h1 h2 <;> dsimp only at *
  · exact ⟨hm1, hm2, by omega, by omega⟩
  · exact ⟨by omega, by omega, by omega, daysInMonth_pos y (m + 1) (by omega) (by omega)⟩
  · refine ⟨by omega, by omega, by omega, ?_⟩
    unfold daysInMonth; norm_num

theorem toDays_prevDay (d : CivilDate) (h : ValidDate d) :
    toDays (prevDay d) = toDays d - 1 := by
  obtain ⟨y, m, dd⟩ := d
  obtain ⟨hm1, hm2, hd1, hd2⟩ := h
  unfold prevDay
  split_ifs with h1 h2 <;> unfold toDays <;> dsimp only at *
  · omega
  · have : doy y (m - 1) + (daysInMonth y (m - 1) : Int) = doy y m := by
      interval_cases m <;> unfold doy daysInMonth leapN at * <;>
        (try norm_num at *) <;> (try split_ifs at *) <;> omega
    omega
  · have hm : m = 1 := by omega
    have hdd : dd = 1 := by omega
    subst hm; subst hdd
    have h365 : daysBeforeYear y = daysBeforeYear (y - 1) + 365 + leapN (y - 1) := by
      have := daysBeforeYear_succ (y - 1); simpa using this
    have h12 : doy (y - 1) 12 = 334 + leapN (y - 1) := by unfold doy; norm_num
    have hh1 : doy y 1 = 0 := by unfold doy; norm_num
    omega

theorem toDays_nextDay (d : CivilDate) (h : ValidDate d) :
    toDays (nextDay d) = toDays d + 1 := by
  obtain ⟨y, m, dd⟩ := d
  obtain ⟨hm1, hm2, hd1, hd2⟩ := h
  unfold nextDay
  split_ifs with h1 h2 <;> unfold toDays <;> dsimp only at *
  · omega
  · have hdd : dd = daysInMonth y m := by omega
    subst hdd
    have : doy y m + (daysInMonth y m : Int) = doy y (m + 1) := by
      interval_cases m <;> unfold doy daysInMonth leapN at * <;>
        (try norm_num at *) <;> (try split_ifs at *) <;> omega
    omega
  · have hm : m = 12 := by omega
    subst hm
    have hdd : dd = 31 := by
      unfold daysInMonth at hd2 h1; norm_num at hd2 h1; omega
    subst hdd
    have h365 : daysBeforeYear (y + 1) = daysBeforeYear y + 365 + leapN y :=
      daysBeforeYear_succ y
    have h12 : doy y 12 = 334 + leapN y := by unfold doy; norm_num
    have hh1 : doy (y + 1) 1 = 0 := by unfold doy; norm_num
    omega

theorem subDaysC_spec (d : CivilDate) (h : ValidDate d) (n : Nat) :
    ValidDate (subDaysC d n) ∧ toDays (subDaysC d n) = toDays d - n := by
  induction n with
  | zero => simpa [subDaysC] using h
  | succ n ih =>
    obtain ⟨hv, ht⟩ := ih
    refine ⟨valid_prevDay _ hv, ?_⟩
    rw [subDaysC, toDays_prevDay _ hv, ht]
    push_cast
    ring

theorem addDaysC_spec (d : CivilDate) (h : ValidDate d) (n : Nat) :
    ValidDate (addDaysC d n) ∧ toDays (addDaysC d n) = toDays d + n := by
  induction n with
  | zero => simpa [addDaysC] using h
  | succ n ih =>
    obtain ⟨hv, ht⟩ := ih
    refine ⟨valid_nextDay _ hv, ?_⟩
    rw [addDaysC, toDays_nextDay _ hv, ht]
    push_cast
    ring

theorem addDays_spec (d : CivilDate) (h : ValidDate d) (k : Int) :
    ValidDate (addDays d k) ∧ toDays (addDays d k) = toDays d + k := by
  unfold addDays
  split_ifs with hk
  · obtain ⟨hv, ht⟩ := addDaysC_spec d h k.toNat
    exact ⟨hv, by rw [ht]; omega⟩
  · obtain ⟨hv, ht⟩ := subDaysC_spec d h (-k).toNat
    exact ⟨hv, by rw [ht]; omega⟩

theorem doy_day_lt (y : Int) (m d mb db : Nat) (hm1 : 1 ≤ m) (hm2 : m ≤ 12)
    (hd1 : 1 ≤ d) (hd2 : d ≤ daysInMonth y m) (hb1 : 1 ≤ mb) (hb2 : mb ≤ 12)
    (he1 : 1 ≤ db) (hlt : m < mb ∨ (m = mb ∧ d < db)) :
    doy y m + ((d : Int) - 1) < doy y mb + ((db : Int) - 1) := by
  rcases hlt with hlt | ⟨heq, hlt⟩
  · interval_cases m <;> interval_cases mb <;>
      unfold doy daysInMonth leapN at * <;> (try norm_num at *) <;>
      (try split_ifs at *) <;> omega
  · subst heq; omega

theorem toDays_lt_of_keyLt (a b : CivilDate) (ha : ValidDate a) (hb : ValidDate b)
    (h : keyLt a b) : toDays a < toDays b := by
  obtain ⟨ha1, ha2, ha3, ha4⟩ := ha
  obtain ⟨hb1, hb2, hb3, hb4⟩ := hb
  rcases h with hy | ⟨hy, hrest⟩
  · have hub := (doy_day_bounds a.year a.month a.day ha1 ha2 ha3 ha4).2
    have hlb := (doy_day_bounds b.year b.month b.day hb1 hb2 hb3 hb4).1
    have hsucc := daysBeforeYear_succ a.year
    have hmono : daysBeforeYear (a.year + 1) ≤ daysBeforeYear b.year :=
      daysBeforeYear_mono (by omega)
    have hl := leapN_cases a.year
    unfold toDays
    omega
  · have hdl := doy_day_lt a.year a.month a.day b.month b.day ha1 ha2 ha3 ha4 hb1 hb2 hb3 hrest
    unfold toDays
    rw [hy] at hdl ⊢
    omega

theorem keyLt_trichotomy (a b : CivilDate) : keyLt a b ∨ a = b ∨ keyLt b a := by
  obtain ⟨ya, ma, da⟩ := a; obtain ⟨yb, mb, db⟩ := b
  simp only [keyLt, CivilDate.mk.injEq]
  omega

theorem keyLt_iff_toDays_lt (a b : CivilDate) (ha : ValidDate a) (hb : ValidDate b) :
    keyLt a b ↔ toDays a < toDays b := by
  constructor
  · exact toDays_lt_of_keyLt a b ha hb
  · intro h
    rcases keyLt_trichotomy a b with hk | hk | hk
    · exact hk
    · subst hk; omega
    · have := toDays_lt_of_keyLt b a hb ha hk; omega

theorem weekday_bounds (d : CivilDate) : 0 ≤ weekday d ∧ weekday d < 7 := by
  unfold weekday; omega

-- ─── List and aggregation lemmas ─────────────────────────────────────────────

theorem foldl_add_amount (l : List Expense) (init : ℚ) :
    l.foldl (fun sum expense => sum + expense.amount) init
      = init + (l.map (·.amount)).sum := by
  induction l generalizing init with
  | nil => simp
  | cons e t ih => simp [ih]; ring

theorem dayTotal_apply (l : List Expense) (m : CivilDate → ℚ) (k : CivilDate) :
    l.foldl (fun totals expense => fun key =>
        if key = toDateKey expense.date then totals key + expense.amount else totals key)
      m k
    = m k + ((l.filter (fun e => toDateKey e.date = k)).map (·.amount)).sum := by
  induction l generalizing m with
  | nil => simp
  | cons e t ih =>
    simp only [List.foldl_cons, ih, List.filter_cons]
    by_cases h : toDateKey e.date = k
    · simp [h, eq_comm]; ring
    · have h2 : ¬(k = toDateKey e.date) := fun hk => h hk.symm
      simp [h, h2]

theorem dayTotal_eq (l : List Expense) (k : CivilDate) :
    dayTotal l k = ((l.filter (fun e => toDateKey e.date = k)).map (·.amount)).sum := by
  unfold dayTotal
  rw [dayTotal_apply]
  simp

theorem dayTotal_eq_zero (l : List Expense) (k : CivilDate)
    (h : ∀ e ∈ l, toDateKey e.date ≠ k) : dayTotal l k = 0 := by
  rw [dayTotal_eq]
  have : l.filter (fun e => toDateKey e.date = k) = [] := by
    rw [List.filter_eq_nil_iff]
    intro e he
    simpa using h e he
  rw [this]
  simp

theorem categoryAmount_foldl (l : List Expense) (init : ℚ) (c : CategoryKey) :
    l.foldl (fun current expense =>
        if expense.category = c then current + expense.amount else current) init
      = init + ((l.filter (fun e => e.category = c)).map (·.amount)).sum := by
  induction l generalizing init with
  | nil => simp
  | cons e t ih =>
    simp only [List.foldl_cons, ih, List.filter_cons]
    by_cases h : e.category = c
    · simp [h]; ring
    · simp [h]

theorem categoryAmount_eq (l : List Expense) (c : CategoryKey) :
    categoryAmount l c = ((l.filter (fun e => e.category = c)).map (·.amount)).sum := by
  unfold categoryAmount
  rw [categoryAmount_foldl]
  simp

theorem mem_categoryKeys_aux (l : List Expense) :
    ∀ (ks : List CategoryKey) (c : CategoryKey),
      (c ∈ l.foldl
        (fun ks expense => if expense.category ∈ ks then ks else ks ++ [expense.category]) ks
      ↔ c ∈ ks ∨ ∃ e ∈ l, e.category = c) := by
  induction l with
  | nil => intro ks c; simp
  | cons e t ih =>
    intro ks c
    simp only [List.foldl_cons]
    by_cases h : e.category ∈ ks
    · rw [if_pos h, ih]
      simp only [List.mem_cons]
      constructor
      · rintro (hc | ⟨x, hx, hcx⟩)
        · exact Or.inl hc
        · exact Or.inr ⟨x, Or.inr hx, hcx⟩
      · rintro (hc | ⟨x, hx | hx, hcx⟩)
        · exact Or.inl hc
        · subst hx; exact Or.inl (hcx ▸ h)
        · exact Or.inr ⟨x, hx, hcx⟩
    · rw [if_neg h, ih]
      simp only [List.mem_append, List.mem_cons]
      constructor
      · rintro ((hc | hc) | ⟨x, hx, hcx⟩)
        · exact Or.inl hc
        · rcases hc with hc | hc
          · exact Or.inr ⟨e, Or.inl rfl, hc.symm⟩
          · exact absurd hc (List.not_mem_nil c)
        · exact Or.inr ⟨x, Or.inr hx, hcx⟩
      · rintro (hc | ⟨x, hx | hx, hcx⟩)
        · exact Or.inl (Or.inl hc)
        · subst hx; exact Or.inl (Or.inr (Or.inl hcx.symm))
        · exact Or.inr ⟨x, hx, hcx⟩

theorem nodup_categoryKeys_aux (l : List Expense) :
    ∀ (ks : List CategoryKey), ks.Nodup →
      (l.foldl
        (fun ks expense => if expense.category ∈ ks then ks else ks ++ [expense.category])
        ks).Nodup := by
  induction l with
  | nil => intro ks h; exact h
  | cons e t ih =>
    intro ks h
    simp only [List.foldl_cons]
    by_cases hc : e.category ∈ ks
    · rw [if_pos hc]; exact ih ks h
    · rw [if_neg hc]
      exact ih _ (by simp [List.nodup_append, h, hc])

theorem mem_categoryKeys (l : List Expense) (c : CategoryKey) :
    c ∈ categoryKeys l ↔ ∃ e ∈ l, e.category = c := by
  unfold categoryKeys
  rw [mem_categoryKeys_aux]
  simp

theorem nodup_categoryKeys (l : List Expense) : (categoryKeys l).Nodup :=
  nodup_categoryKeys_aux l [] List.nodup_nil

theorem sum_map_add_q {α : Type} (l : List α) (f g : α → ℚ) :
    (l.map (fun x => f x + g x)).sum = (l.map f).sum + (l.map g).sum := by
  induction l with
  | nil => simp
  | cons x t ih => simp [ih]; ring

theorem sum_map_ite_single (ks : List CategoryKey) (a : CategoryKey) (x : ℚ)
    (hnd : ks.Nodup) :
    (ks.map (fun c => if a = c then x else 0)).sum = if a ∈ ks then x else 0 := by
  induction ks with
  | nil => simp
  | cons k t ih =>
    simp only [List.map_cons, List.sum_cons, List.mem_cons]
    rcases List.nodup_cons.mp hnd with ⟨hk, ht⟩
    by_cases h : a = k
    · subst h
      rw [if_pos rfl, ih ht, if_neg hk, if_pos (Or.inl rfl)]
      ring
    · rw [if_neg h, ih ht]
      by_cases hm : a ∈ t
      · rw [if_pos hm, if_pos (Or.inr hm)]; ring
      · rw [if_neg hm, if_neg (by rintro (hc | hc) <;> [exact h hc; exact hm hc])]; ring

theorem sum_categoryAmount (ks : List CategoryKey) (l : List Expense)
    (hnd : ks.Nodup) (hcov : ∀ e ∈ l, e.category ∈ ks) :
    (ks.map (fun c => categoryAmount l c)).sum = (l.map (·.amount)).sum := by
  induction l with
  | nil =>
    simp only [categoryAmount, List.foldl_nil, List.map_nil, List.sum_nil]
    rw [show (fun (_ : CategoryKey) => (0 : ℚ)) = fun c => if c ∈ ks then 0 else 0 by
      funext c; simp]
    induction ks with
    | nil => simp
    | cons k t iht => simp_all
  | cons e t ih =>
    have hstep : ∀ c, categoryAmount (e :: t) c =
        (if e.category = c then e.amount else 0) + categoryAmount t c := by
      intro c
      rw [categoryAmount_eq, categoryAmount_eq, List.filter_cons]
      by_cases h : e.category = c
      · simp [h]
      · simp [h]
    simp only [hstep]
    rw [sum_map_add_q, sum_map_ite_single ks e.category e.amount hnd,
      if_pos (hcov e (List.mem_cons_self e t)),
      ih (fun x hx => hcov x (List.mem_cons_of_mem e hx))]
    simp

-- ─── Streak loop lemmas ──────────────────────────────────────────────────────

theorem streakLoop_eq (ok : Nat → Bool) :
    ∀ (fuel k i : Nat), (∀ j, j < k → ok (i + j) = true) → ok (i + k) = false →
      streakLoop ok i fuel = min k fuel := by
  intro fuel
  induction fuel with
  | zero => intro k i _ _; simp [streakLoop]
  | succ fuel ih =>
    intro k i hok hk
    match k with
    | 0 =>
      have h0 : ok i = false := by simpa using hk
      simp [streakLoop, h0]
    | k + 1 =>
      have h0 : ok i = true := by simpa using hok 0 (by omega)
      rw [streakLoop, if_pos h0]
      rw [ih k (i + 1)
        (fun j hj => by
          have := hok (j + 1) (by omega)
          rwa [show i + (j + 1) = i + 1 + j by omega] at this)
        (by rwa [show i + 1 + k = i + (k + 1) by omega])]
      omega

theorem streakLoop_pos (ok : Nat → Bool) (i fuel : Nat)
    (h : 0 < streakLoop ok i fuel) : ok i = true := by
  match fuel with
  | 0 => simp [streakLoop] at h
  | fuel + 1 =>
    by_cases hok : ok i = true
    · exact hok
    · rw [streakLoop, if_neg (by simpa using hok)] at h
      omega

-- ─── Health status characterization ──────────────────────────────────────────

theorem getHealthStatus_over_iff (p : ℚ) : getHealthStatus p = .over ↔ 100 ≤ p := by
  unfold getHealthStatus BUDGET_WARNING_THRESHOLD
  split_ifs with h1 h2 <;> simp <;> linarith

theorem getHealthStatus_warning_iff (p : ℚ) :
    getHealthStatus p = .warning ↔ 80 ≤ p ∧ p < 100 := by
  unfold getHealthStatus BUDGET_WARNING_THRESHOLD
  split_ifs with h1 h2
  · simp only [reduceCtorEq, false_iff]
    rintro ⟨-, hlt⟩
    linarith
  · simp only [true_iff]
    exact ⟨h2, by linarith⟩
  · simp only [reduceCtorEq, false_iff]
    rintro ⟨hge, -⟩
    exact h2 (by linarith)

theorem getHealthStatus_safe_iff (p : ℚ) : getHealthStatus p = .safe ↔ p < 80 := by
  unfold getHealthStatus BUDGET_WARNING_THRESHOLD
  split_ifs with h1 h2
  · simp only [reduceCtorEq, false_iff]
    intro hlt
    linarith
  · simp only [reduceCtorEq, false_iff]
    intro hlt
    linarith
  · simp only [true_iff]
    linarith

-- ─── Concrete fixtures used by witnesses ─────────────────────────────────────

/-- A sample calendar day (a Saturday). -/
def sampleDay : CivilDate := ⟨2025, 10, 11⟩

/-- A sample instant: noon on `sampleDay`. -/
def sampleDT : DateTime := ⟨sampleDay, 43200000⟩

/-- Builds an expense with fixed bookkeeping fields, for concrete test inputs. -/
def mkExpense (a : ℚ) (c : CategoryKey) (t : DateTime) : Expense :=
  ⟨"id", "user", "budget", a, c, "", t, t⟩

-- ─── Claims ──────────────────────────────────────────────────────────────────

/-- C1: for every limit `L > 0` and expense list, `getBudgetStatus` returns
`totalSpent` equal to the sum `S` of the amounts, `remaining = L - S` exactly,
`percentUsed = S/L*100` exactly, and its status is `over` iff `percentUsed ≥ 100`,
`warning` iff `80 ≤ percentUsed < 100`, and `safe` otherwise, boundaries falling
in the higher-severity bucket. -/
theorem c1_getBudgetStatus_correct (L : ℚ) (expenses : List Expense) (hL : 0 < L) :
    (getBudgetStatus L expenses).totalSpent = (expenses.map (·.amount)).sum ∧
    (getBudgetStatus L expenses).remaining = L - (expenses.map (·.amount)).sum ∧
    (getBudgetStatus L expenses).percentUsed
      = (expenses.map (·.amount)).sum / L * 100 ∧
    ((getBudgetStatus L expenses).status = .over
      ↔ 100 ≤ (getBudgetStatus L expenses).percentUsed) ∧
    ((getBudgetStatus L expenses).status = .warning
      ↔ 80 ≤ (getBudgetStatus L expenses).percentUsed
        ∧ (getBudgetStatus L expenses).percentUsed < 100) ∧
    ((getBudgetStatus L expenses).status = .safe
      ↔ (getBudgetStatus L expenses).percentUsed < 80) := by
  have hnot : ¬ L ≤ 0 := not_le.mpr hL
  unfold getBudgetStatus
  rw [if_neg hnot]
  simp only [foldl_add_amount, zero_add]
  exact ⟨trivial, trivial, trivial, getHealthStatus_over_iff _,
    getHealthStatus_warning_iff _, getHealthStatus_safe_iff _⟩

/-- Witness for C1 at `L = 200` and expenses summing to 180 (90 percent used). -/
theorem c1_witness :
    (0 : ℚ) < 200 ∧
    ((getBudgetStatus 200 [mkExpense 50 .food sampleDT, mkExpense 130 .bills sampleDT]).totalSpent
        = (([mkExpense 50 .food sampleDT, mkExpense 130 .bills sampleDT].map (·.amount)).sum) ∧
      (getBudgetStatus 200 [mkExpense 50 .food sampleDT, mkExpense 130 .bills sampleDT]).remaining
        = 200 - (([mkExpense 50 .food sampleDT, mkExpense 130 .bills sampleDT].map (·.amount)).sum) ∧
      (getBudgetStatus 200 [mkExpense 50 .food sampleDT, mkExpense 130 .bills sampleDT]).percentUsed
        = (([mkExpense 50 .food sampleDT, mkExpense 130 .bills sampleDT].map (·.amount)).sum) / 200 * 100 ∧
      ((getBudgetStatus 200 [mkExpense 50 .food sampleDT, mkExpense 130 .bills sampleDT]).status = .over
        ↔ 100 ≤ (getBudgetStatus 200 [mkExpense 50 .food sampleDT, mkExpense 130 .bills sampleDT]).percentUsed) ∧
      ((getBudgetStatus 200 [mkExpense 50 .food sampleDT, mkExpense 130 .bills sampleDT]).status = .warning
        ↔ 80 ≤ (getBudgetStatus 200 [mkExpense 50 .food sampleDT, mkExpense 130 .bills sampleDT]).percentUsed
          ∧ (getBudgetStatus 200 [mkExpense 50 .food sampleDT, mkExpense 130 .bills sampleDT]).percentUsed < 100) ∧
      ((getBudgetStatus 200 [mkExpense 50 .food sampleDT, mkExpense 130 .bills sampleDT]).status = .safe
        ↔ (getBudgetStatus 200 [mkExpense 50 .food sampleDT, mkExpense 130 .bills sampleDT]).percentUsed < 80)) :=
  ⟨by norm_num,
    c1_getBudgetStatus_correct 200 [mkExpense 50 .food sampleDT, mkExpense 130 .bills sampleDT]
      (by norm_num)⟩

/-- C9: for every limit `L ≤ 0` and every expense list, `getBudgetStatus`
returns the degenerate all-zero safe status. -/
theorem c9_nonpositive_limit (L : ℚ) (expenses : List Expense) (hL : L ≤ 0) :
    getBudgetStatus L expenses = ⟨0, 0, 0, .safe⟩ := by
  unfold getBudgetStatus
  rw [if_pos hL]

/-- Witness for C9 at `L = 0` with a non-empty expense list. -/
theorem c9_witness :
    (0 : ℚ) ≤ 0 ∧ getBudgetStatus 0 [mkExpense 42 .food sampleDT] = ⟨0, 0, 0, .safe⟩ :=
  ⟨le_refl 0, c9_nonpositive_limit 0 [mkExpense 42 .food sampleDT] (le_refl 0)⟩

/-- C10: whenever `calculateBudgetStreak` returns a positive `streakDays`, it
also returns `isActiveToday = true`: the backward walk counts today first under
the same comparison that defines `isActiveToday`. -/
theorem c10_pos_streak_active (expenses : List Expense) (dailyLimit : ℚ)
    (budgetStartDate today : DateTime) (maxLookbackDays : Nat)
    (h : 0 < (calculateBudgetStreak expenses dailyLimit budgetStartDate today
        maxLookbackDays).streakDays) :
    (calculateBudgetStreak expenses dailyLimit budgetStartDate today
        maxLookbackDays).isActiveToday = true := by
  unfold calculateBudgetStreak at h ⊢
  by_cases hL : dailyLimit ≤ 0
  · rw [if_pos hL] at h
    simp at h
  · rw [if_neg hL] at h ⊢
    dsimp only at h ⊢
    have hok := streakLoop_pos _ _ _ h
    unfold streakOk at hok
    simp only [subDaysC] at hok
    split_ifs at hok with hk ht
    simp only [decide_eq_true_eq]
    exact not_lt.mp ht

/-- Witness for C10: empty expense list, the streak is 1 and today is active. -/
theorem c10_witness :
    0 < (calculateBudgetStreak [] 5 sampleDT sampleDT 365).streakDays ∧
    (calculateBudgetStreak [] 5 sampleDT sampleDT 365).isActiveToday = true :=
  ⟨by decide, c10_pos_streak_active [] 5 sampleDT sampleDT 365 (by decide)⟩

/-- C4: with a positive daily limit and zero spending on every day from the
budget start to today, the streak is `min (daysSinceStart + 1) maxLookbackDays`
and today is active (`n` is the number of calendar days from start to today). -/
theorem c4_streak_all_under (expenses : List Expense) (dailyLimit : ℚ)
    (budgetStartDate today : DateTime) (maxLookbackDays n : Nat)
    (hL : 0 < dailyLimit)
    (hvt : ValidDate today.civil) (hvs : ValidDate budgetStartDate.civil)
    (hn : toDays today.civil = toDays budgetStartDate.civil + n)
    (hzero : ∀ j ≤ n, dayTotal expenses (subDaysC today.civil j) = 0) :
    (calculateBudgetStreak expenses dailyLimit budgetStartDate today
        maxLookbackDays).streakDays = min (n + 1) maxLookbackDays ∧
    (calculateBudgetStreak expenses dailyLimit budgetStartDate today
        maxLookbackDays).isActiveToday = true := by
  have hkey : ∀ j : Nat,
      keyLt (subDaysC today.civil j) budgetStartDate.civil ↔ (n : Int) < j := by
    intro j
    obtain ⟨hv, ht⟩ := subDaysC_spec today.civil hvt j
    rw [keyLt_iff_toDays_lt _ _ hv hvs, ht, hn]
    omega
  unfold calculateBudgetStreak
  rw [if_neg (not_le.mpr hL)]
  dsimp only
  constructor
  · refine streakLoop_eq _ maxLookbackDays (n + 1) 0 ?_ ?_
    · intro j hj
      simp only [Nat.zero_add]
      unfold streakOk toDateKey
      simp only
      rw [if_neg (by rw [hkey j]; omega), if_neg (by rw [hzero j (by omega)]; exact not_lt.mpr (le_of_lt hL))]
    · simp only [Nat.zero_add]
      unfold streakOk toDateKey
      simp only
      rw [if_pos (by rw [hkey (n + 1)]; omega)]
  · simp only [decide_eq_true_eq]
    have h0 := hzero 0 (Nat.zero_le n)
    rw [show subDaysC today.civil 0 = today.civil from rfl] at h0
    unfold toDateKey
    rw [h0]
    exact le_of_lt hL

/-- Witness for C4: empty expense list, budget started today, 365-day lookback. -/
theorem c4_witness :
    (0 : ℚ) < 5 ∧ ValidDate sampleDT.civil ∧
    toDays sampleDT.civil = toDays sampleDT.civil + (0 : Nat) ∧
    (∀ j ≤ 0, dayTotal [] (subDaysC sampleDT.civil j) = 0) ∧
    (calculateBudgetStreak [] 5 sampleDT sampleDT 365).streakDays = min (0 + 1) 365 ∧
    (calculateBudgetStreak [] 5 sampleDT sampleDT 365).isActiveToday = true := by
  have h := c4_streak_all_under [] 5 sampleDT sampleDT 365 0 (by norm_num) (by decide)
    (by decide) (by simp) (fun j _ => rfl)
  exact ⟨by norm_num, by decide, by simp, fun j _ => rfl, h.1, h.2⟩

/-- C8: with a positive daily limit, budget started on or before yesterday,
lookback at least 2, yesterday's total over the limit and today's total at most
the limit (equality counts as in-streak), the streak is exactly 1 and today is
active. -/
theorem c8_streak_restart (expenses : List Expense) (dailyLimit : ℚ)
    (budgetStartDate today : DateTime) (maxLookbackDays : Nat)
    (hL : 0 < dailyLimit)
    (hvt : ValidDate today.civil) (hvs : ValidDate budgetStartDate.civil)
    (hmax : 2 ≤ maxLookbackDays)
    (hstart : toDays budgetStartDate.civil ≤ toDays today.civil - 1)
    (hyest : dailyLimit < dayTotal expenses (subDaysC today.civil 1))
    (htod : dayTotal expenses today.civil ≤ dailyLimit) :
    (calculateBudgetStreak expenses dailyLimit budgetStartDate today
        maxLookbackDays).streakDays = 1 ∧
    (calculateBudgetStreak expenses dailyLimit budgetStartDate today
        maxLookbackDays).isActiveToday = true := by
  unfold calculateBudgetStreak
  rw [if_neg (not_le.mpr hL)]
  dsimp only
  constructor
  · have heq : streakLoop
        (streakOk expenses dailyLimit (toDateKey budgetStartDate) (toDateKey today)) 0
        maxLookbackDays = min 1 maxLookbackDays := by
      refine streakLoop_eq _ maxLookbackDays 1 0 ?_ ?_
      · intro j hj
        have hj0 : j = 0 := by omega
        subst hj0
        simp only [Nat.zero_add]
        unfold streakOk toDateKey
        simp only
        rw [if_neg, if_neg]
        · rw [show subDaysC today.civil 0 = today.civil from rfl]
          exact not_lt.mpr htod
        · rw [show subDaysC today.civil 0 = today.civil from rfl,
            keyLt_iff_toDays_lt _ _ hvt hvs]
          omega
      · simp only [Nat.zero_add]
        unfold streakOk toDateKey
        simp only
        by_cases hk1 : keyLt (subDaysC today.civil 1) budgetStartDate.civil
        · rw [if_pos hk1]
        · rw [if_neg hk1, if_pos hyest]
    rw [heq]
    omega
  · simp only [decide_eq_true_eq]
    unfold toDateKey
    exact htod

/-- Witness for C8: yesterday 20 over a limit of 10, today exactly 10 (at the
boundary), budget started ten days earlier. -/
theorem c8_witness :
    (0 : ℚ) < 10 ∧ ValidDate sampleDT.civil ∧
    ValidDate (DateTime.mk ⟨2025, 10, 1⟩ 0).civil ∧
    (2 : Nat) ≤ 365 ∧
    toDays (DateTime.mk ⟨2025, 10, 1⟩ 0).civil ≤ toDays sampleDT.civil - 1 ∧
    (10 : ℚ) < dayTotal
      [mkExpense 20 .food ⟨⟨2025, 10, 10⟩, 1000⟩, mkExpense 10 .bills sampleDT]
      (subDaysC sampleDT.civil 1) ∧
    dayTotal [mkExpense 20 .food ⟨⟨2025, 10, 10⟩, 1000⟩, mkExpense 10 .bills sampleDT]
      sampleDT.civil ≤ 10 ∧
    (calculateBudgetStreak
      [mkExpense 20 .food ⟨⟨2025, 10, 10⟩, 1000⟩, mkExpense 10 .bills sampleDT]
      10 ⟨⟨2025, 10, 1⟩, 0⟩ sampleDT 365).streakDays = 1 ∧
    (calculateBudgetStreak
      [mkExpense 20 .food ⟨⟨2025, 10, 10⟩, 1000⟩, mkExpense 10 .bills sampleDT]
      10 ⟨⟨2025, 10, 1⟩, 0⟩ sampleDT 365).isActiveToday = true := by
  have hsub : subDaysC sampleDT.civil 1 = ⟨2025, 10, 10⟩ := rfl
  have hy : (10 : ℚ) < dayTotal
      [mkExpense 20 .food ⟨⟨2025, 10, 10⟩, 1000⟩, mkExpense 10 .bills sampleDT]
      (subDaysC sampleDT.civil 1) := by
    rw [hsub, dayTotal_eq]
    norm_num [toDateKey, mkExpense, sampleDT, sampleDay, List.filter_cons, CivilDate.mk.injEq]
  have ht : dayTotal
      [mkExpense 20 .food ⟨⟨2025, 10, 10⟩, 1000⟩, mkExpense 10 .bills sampleDT]
      sampleDT.civil ≤ 10 := by
    rw [dayTotal_eq]
    norm_num [toDateKey, mkExpense, sampleDT, sampleDay, List.filter_cons, CivilDate.mk.injEq]
  have h := c8_streak_restart
    [mkExpense 20 .food ⟨⟨2025, 10, 10⟩, 1000⟩, mkExpense 10 .bills sampleDT]
    10 ⟨⟨2025, 10, 1⟩, 0⟩ sampleDT 365
    (by norm_num) (by decide) (by decide) (by norm_num) (by decide) hy ht
  exact ⟨by norm_num, by decide, by decide, by norm_num, by decide, hy, ht, h.1, h.2⟩

/-- C5: `getLast7DaysSpending` always returns exactly 7 entries, one per
calendar day ending today, oldest first (the entry at index `j` is the day
`6 - j` days before today); only the entry at index 6 has `isToday = true`;
and an entry whose day has no recorded expense has amount 0. -/
theorem c5_last7days (expenses : List Expense) (today : DateTime)
    (hvt : ValidDate today.civil) :
    (getLast7DaysSpending expenses today).length = 7 ∧
    (∀ (j : Nat) (hj : j < (getLast7DaysSpending expenses today).length),
      ((getLast7DaysSpending expenses today).get ⟨j, hj⟩).date.civil
          = subDaysC today.civil (6 - j) ∧
      toDays ((getLast7DaysSpending expenses today).get ⟨j, hj⟩).date.civil
          = toDays today.civil - ((6 - j : Nat) : Int) ∧
      (((getLast7DaysSpending expenses today).get ⟨j, hj⟩).isToday = true ↔ j = 6) ∧
      ((∀ e ∈ expenses, toDateKey e.date ≠ subDaysC today.civil (6 - j)) →
        ((getLast7DaysSpending expenses today).get ⟨j, hj⟩).amount = 0)) := by
  have hlen : (getLast7DaysSpending expenses today).length = 7 := by
    unfold getLast7DaysSpending
    simp
  refine ⟨hlen, ?_⟩
  intro j hj
  have hj7 : j < 7 := hlen ▸ hj
  have hget : (getLast7DaysSpending expenses today).get ⟨j, hj⟩
      = DailySpending.mk ⟨subDaysC today.civil (6 - j), today.ms⟩
          (if 6 - j = 0 then "Today" else weekdayName (weekday (subDaysC today.civil (6 - j))))
          (dayTotal expenses (subDaysC today.civil (6 - j)))
          (decide (6 - j = 0)) := by
    unfold getLast7DaysSpending
    simp [List.get_eq_getElem]
  rw [hget]
  refine ⟨rfl, ?_, ?_, ?_⟩
  · exact (subDaysC_spec today.civil hvt (6 - j)).2
  · simp only [decide_eq_true_eq]
    omega
  · intro hnone
    exact dayTotal_eq_zero expenses _ hnone

/-- Witness for C5 on the empty expense list. -/
theorem c5_witness :
    ValidDate sampleDT.civil ∧
    ((getLast7DaysSpending [] sampleDT).length = 7 ∧
    (∀ (j : Nat) (hj : j < (getLast7DaysSpending [] sampleDT).length),
      ((getLast7DaysSpending [] sampleDT).get ⟨j, hj⟩).date.civil
          = subDaysC sampleDT.civil (6 - j) ∧
      toDays ((getLast7DaysSpending [] sampleDT).get ⟨j, hj⟩).date.civil
          = toDays sampleDT.civil - ((6 - j : Nat) : Int) ∧
      (((getLast7DaysSpending [] sampleDT).get ⟨j, hj⟩).isToday = true ↔ j = 6) ∧
      ((∀ e ∈ ([] : List Expense), toDateKey e.date ≠ subDaysC sampleDT.civil (6 - j)) →
        ((getLast7DaysSpending [] sampleDT).get ⟨j, hj⟩).amount = 0))) :=
  ⟨by decide, c5_last7days [] sampleDT (by decide)⟩

/-- A Sunday fixture: 2025-10-12, one day after `sampleDay`. -/
def sundayDT : DateTime := ⟨⟨2025, 10, 12⟩, 1000⟩

/-- C7: `startOfWeek` is local midnight of the Monday on or before the
reference date (weekday 1, at most 6 days back), `endOfWeek` is 23:59:59.999
of the following Sunday (start + 6 days, weekday 0), and for a Sunday
reference the week start is 6 days earlier, not the same day. -/
theorem c7_week_range (t : DateTime) (hv : ValidDate t.civil) :
    (startOfWeek t).ms = 0 ∧
    weekday (startOfWeek t).civil = 1 ∧
    toDays (startOfWeek t).civil ≤ toDays t.civil ∧
    toDays t.civil - toDays (startOfWeek t).civil ≤ 6 ∧
    (endOfWeek t).ms = 86399999 ∧
    toDays (endOfWeek t).civil = toDays (startOfWeek t).civil + 6 ∧
    weekday (endOfWeek t).civil = 0 ∧
    (weekday t.civil = 0 → toDays (startOfWeek t).civil = toDays t.civil - 6) := by
  have hwb := weekday_bounds t.civil
  by_cases hw : weekday t.civil = 0
  · obtain ⟨hvs, hts⟩ := addDays_spec t.civil hv (-6)
    unfold startOfWeek endOfWeek
    dsimp only
    rw [if_pos hw]
    obtain ⟨hve, hte⟩ := addDays_spec (addDays t.civil (-6)) hvs 6
    unfold startOfWeek
    dsimp only
    rw [if_pos hw]
    refine ⟨rfl, ?_, by omega, by omega, rfl, by omega, ?_, fun _ => by omega⟩
    · unfold weekday at hw ⊢
      omega
    · unfold weekday at hw ⊢
      omega
  · obtain ⟨hvs, hts⟩ := addDays_spec t.civil hv (1 - weekday t.civil)
    unfold startOfWeek endOfWeek
    dsimp only
    rw [if_neg hw]
    obtain ⟨hve, hte⟩ := addDays_spec (addDays t.civil (1 - weekday t.civil)) hvs 6
    unfold startOfWeek
    dsimp only
    rw [if_neg hw]
    refine ⟨rfl, ?_, by unfold weekday at *; omega, by unfold weekday at *; omega, rfl,
      by omega, ?_, fun h0 => absurd h0 hw⟩
    · unfold weekday at hwb hts ⊢
      omega
    · unfold weekday at hwb hts hte ⊢
      omega

/-- Witness for C7 at a Sunday reference date. -/
theorem c7_witness :
    ValidDate sundayDT.civil ∧
    ((startOfWeek sundayDT).ms = 0 ∧
    weekday (startOfWeek sundayDT).civil = 1 ∧
    toDays (startOfWeek sundayDT).civil ≤ toDays sundayDT.civil ∧
    toDays sundayDT.civil - toDays (startOfWeek sundayDT).civil ≤ 6 ∧
    (endOfWeek sundayDT).ms = 86399999 ∧
    toDays (endOfWeek sundayDT).civil = toDays (startOfWeek sundayDT).civil + 6 ∧
    weekday (endOfWeek sundayDT).civil = 0 ∧
    (weekday sundayDT.civil = 0 →
      toDays (startOfWeek sundayDT).civil = toDays sundayDT.civil - 6)) :=
  ⟨by decide, c7_week_range sundayDT (by decide)⟩

theorem endOfMonthDay_eq (d : CivilDate) (h : ValidDate d) :
    endOfMonthDay d = ⟨d.year, d.month, daysInMonth d.year d.month⟩ := by
  obtain ⟨hm1, hm2, _, _⟩ := h
  unfold endOfMonthDay
  by_cases h12 : d.month = 12
  · rw [if_pos h12, h12]
    unfold prevDay
    rw [if_neg (by norm_num), if_neg (by norm_num)]
    have : daysInMonth d.year 12 = 31 := by unfold daysInMonth; norm_num
    simp [this]
  · rw [if_neg h12]
    unfold prevDay
    dsimp only
    rw [if_neg (by norm_num), if_pos (by omega)]
    simp

theorem inMonth_iff (t ref : DateTime) (hv : ValidDT t) (hvr : ValidDate ref.civil) :
    ((startOfMonth ref).getTime ≤ t.getTime ∧ t.getTime ≤ (endOfMonth ref).getTime)
      ↔ (t.civil.year = ref.civil.year ∧ t.civil.month = ref.civil.month) := by
  obtain ⟨hvc, hms⟩ := hv
  have hdim := daysInMonth_pos ref.civil.year ref.civil.month hvr.1 hvr.2.1
  have hv1 : ValidDate ⟨ref.civil.year, ref.civil.month, 1⟩ := by
    unfold ValidDate; dsimp only
    exact ⟨hvr.1, hvr.2.1, le_refl 1, hdim⟩
  have hv2 : ValidDate
      ⟨ref.civil.year, ref.civil.month, daysInMonth ref.civil.year ref.civil.month⟩ := by
    unfold ValidDate; dsimp only
    exact ⟨hvr.1, hvr.2.1, hdim, le_refl _⟩
  have k1 := keyLt_iff_toDays_lt t.civil ⟨ref.civil.year, ref.civil.month, 1⟩ hvc hv1
  have k2 := keyLt_iff_toDays_lt
    ⟨ref.civil.year, ref.civil.month, daysInMonth ref.civil.year ref.civil.month⟩ t.civil
    hv2 hvc
  obtain ⟨a1, a2, a3, a4⟩ := hvc
  obtain ⟨c1, c2, c3, c4⟩ := hvr
  unfold DateTime.getTime startOfMonth endOfMonth
  rw [endOfMonthDay_eq ref.civil ⟨c1, c2, c3, c4⟩]
  dsimp only
  unfold keyLt at k1 k2
  dsimp only at k1 k2
  have hcong : t.civil.year = ref.civil.year → t.civil.month = ref.civil.month →
      daysInMonth t.civil.year t.civil.month
        = daysInMonth ref.civil.year ref.civil.month := by
    intro h1 h2; rw [h1, h2]
  omega

/-- C3: for every reference date on day `d` of a month with `m` calendar days,
`calculateMonthlyForecast` returns `daysElapsed = d`, `daysRemaining = m - d`,
`totalSpent` equal to the sum of the amounts of the expenses dated in that
month, `currentBurnRate = totalSpent / d`, and
`projectedTotal = totalSpent + currentBurnRate * daysRemaining`. -/
theorem c3_forecast (expenses : List Expense) (monthlyLimit : ℚ)
    (referenceDate : DateTime) (hv : ValidDate referenceDate.civil)
    (hexp : ∀ e ∈ expenses, ValidDT e.date) :
    (calculateMonthlyForecast expenses monthlyLimit referenceDate).daysElapsed
        = (referenceDate.civil.day : Int) ∧
    (calculateMonthlyForecast expenses monthlyLimit referenceDate).daysRemaining
        = (daysInMonth referenceDate.civil.year referenceDate.civil.month : Int)
          - (referenceDate.civil.day : Int) ∧
    (calculateMonthlyForecast expenses monthlyLimit referenceDate).totalSpent
        = ((expenses.filter (fun e => e.date.civil.year = referenceDate.civil.year
              ∧ e.date.civil.month = referenceDate.civil.month)).map (·.amount)).sum ∧
    (calculateMonthlyForecast expenses monthlyLimit referenceDate).currentBurnRate
        = (calculateMonthlyForecast expenses monthlyLimit referenceDate).totalSpent
          / (referenceDate.civil.day : ℚ) ∧
    (calculateMonthlyForecast expenses monthlyLimit referenceDate).projectedTotal
        = (calculateMonthlyForecast expenses monthlyLimit referenceDate).totalSpent
          + (calculateMonthlyForecast expenses monthlyLimit referenceDate).currentBurnRate
            * (((calculateMonthlyForecast expenses monthlyLimit
                referenceDate).daysRemaining : Int) : ℚ) := by
  have hfil : expenses.filter (fun e =>
        decide ((startOfMonth referenceDate).getTime ≤ e.date.getTime)
        && decide (e.date.getTime ≤ (endOfMonth referenceDate).getTime))
      = expenses.filter (fun e => decide (e.date.civil.year = referenceDate.civil.year
          ∧ e.date.civil.month = referenceDate.civil.month)) := by
    apply List.filter_congr
    intro e he
    rw [← Bool.decide_and, decide_eq_decide]
    exact inMonth_iff e.date referenceDate (hexp e he) hv
  have hday : ((endOfMonth referenceDate).civil.day : Int)
      = (daysInMonth referenceDate.civil.year referenceDate.civil.month : Int) := by
    unfold endOfMonth
    dsimp only
    rw [endOfMonthDay_eq referenceDate.civil hv]
  have hd1 : (1 : Int) ≤ (referenceDate.civil.day : Int) := by
    have := hv.2.2.1; omega
  unfold calculateMonthlyForecast
  dsimp only
  rw [hfil, hday, if_pos (by omega)]
  refine ⟨rfl, rfl, ?_, rfl, rfl⟩
  rw [foldl_add_amount]
  simp

/-- The date 2025-04-01, the first day of a 30-day month. -/
def aprilDT : DateTime := ⟨⟨2025, 4, 1⟩, 0⟩

/-- Witness for C3: on day 1 of a 30-day month with 100 spent, the burn rate is
100 and the projection is 3000. -/
theorem c3_witness :
    ValidDate aprilDT.civil ∧
    (∀ e ∈ [mkExpense 100 .food aprilDT], ValidDT e.date) ∧
    (calculateMonthlyForecast [mkExpense 100 .food aprilDT] 1000 aprilDT).daysElapsed = 1 ∧
    (calculateMonthlyForecast [mkExpense 100 .food aprilDT] 1000 aprilDT).daysRemaining = 29 ∧
    (calculateMonthlyForecast [mkExpense 100 .food aprilDT] 1000 aprilDT).currentBurnRate
        = 100 ∧
    (calculateMonthlyForecast [mkExpense 100 .food aprilDT] 1000 aprilDT).projectedTotal
        = 3000 := by
  have hexp : ∀ e ∈ [mkExpense 100 .food aprilDT], ValidDT e.date := by
    intro e he
    simp only [List.mem_singleton] at he
    subst he
    decide
  obtain ⟨h1, h2, h3, h4, h5⟩ :=
    c3_forecast [mkExpense 100 .food aprilDT] 1000 aprilDT (by decide) hexp
  have htot : (calculateMonthlyForecast [mkExpense 100 .food aprilDT] 1000 aprilDT).totalSpent
      = 100 := by
    rw [h3]
    norm_num [aprilDT, mkExpense, List.filter_cons]
  have helap : (calculateMonthlyForecast [mkExpense 100 .food aprilDT] 1000 aprilDT).daysElapsed
      = 1 := by rw [h1]; decide
  have hrem : (calculateMonthlyForecast [mkExpense 100 .food aprilDT] 1000 aprilDT).daysRemaining
      = 29 := by rw [h2]; decide
  have hburn : (calculateMonthlyForecast [mkExpense 100 .food aprilDT] 1000
      aprilDT).currentBurnRate = 100 := by
    rw [h4, htot]
    norm_num [aprilDT]
  refine ⟨by decide, hexp, helap, hrem, hburn, ?_⟩
  rw [h5, htot, hburn, hrem]
  norm_num

theorem sum_map_div_mul (ks : List CategoryKey) (f : CategoryKey → ℚ) (t : ℚ) :
    (ks.map (fun c => f c / t * 100)).sum = (ks.map f).sum / t * 100 := by
  induction ks with
  | nil => simp
  | cons k rest ih => simp [ih]; ring

/-- C2: for a date range whose filtered expense set is non-empty,
`getCategorySummary` returns categories whose amounts sum exactly to the
returned total and, when the total is positive, whose percents sum exactly
to 100. -/
theorem c2_category_summary (expenses : List Expense) (startDate endDate : DateTime)
    (hne : filterExpensesByDateRange expenses (startOfDay startDate) (endOfDay endDate)
      ≠ []) :
    ((getCategorySummary expenses startDate endDate).categories.map (·.amount)).sum
        = (getCategorySummary expenses startDate endDate).total ∧
    (0 < (getCategorySummary expenses startDate endDate).total →
      ((getCategorySummary expenses startDate endDate).categories.map (·.percent)).sum
        = 100) := by
  unfold getCategorySummary
  dsimp only
  set F := filterExpensesByDateRange expenses (startOfDay startDate) (endOfDay endDate)
    with hF
  rw [if_neg (by simpa [List.length_eq_zero] using hne)]
  dsimp only
  set T := F.foldl (fun sum expense => sum + expense.amount) 0 with hT
  have hTsum : T = (F.map (·.amount)).sum := by
    rw [hT, foldl_add_amount]
    simp
  have hnd := nodup_categoryKeys F
  have hcov : ∀ e ∈ F, e.category ∈ categoryKeys F :=
    fun e he => (mem_categoryKeys F e.category).mpr ⟨e, he, rfl⟩
  constructor
  · have hperm := (List.perm_insertionSort
      (fun a b : CategorySummaryItem => b.amount ≤ a.amount)
      ((categoryKeys F).map (fun category =>
        CategorySummaryItem.mk category (categoryAmount F category)
          (if 0 < T then categoryAmount F category / T * 100 else 0)))).map (·.amount)
    rw [hperm.sum_eq, List.map_map]
    have : ((fun x : CategorySummaryItem => x.amount) ∘ fun category =>
        CategorySummaryItem.mk category (categoryAmount F category)
          (if 0 < T then categoryAmount F category / T * 100 else 0))
        = fun category => categoryAmount F category := rfl
    rw [this, sum_categoryAmount (categoryKeys F) F hnd hcov, hTsum]
  · intro hpos
    simp only [if_pos hpos]
    have hperm := (List.perm_insertionSort
      (fun a b : CategorySummaryItem => b.amount ≤ a.amount)
      ((categoryKeys F).map (fun category =>
        CategorySummaryItem.mk category (categoryAmount F category)
          (categoryAmount F category / T * 100)))).map (·.percent)
    rw [hperm.sum_eq, List.map_map]
    have : ((fun x : CategorySummaryItem => x.percent) ∘ fun category =>
        CategorySummaryItem.mk category (categoryAmount F category)
          (categoryAmount F category / T * 100))
        = fun category => categoryAmount F category / T * 100 := rfl
    rw [this, sum_map_div_mul, sum_categoryAmount (categoryKeys F) F hnd hcov, ← hTsum,
      div_self (ne_of_gt hpos)]
    norm_num

/-- Witness for C2 on two expenses in two categories on the sample day. -/
theorem c2_witness :
    filterExpensesByDateRange [mkExpense 50 .food sampleDT, mkExpense 130 .bills sampleDT]
        (startOfDay sampleDT) (endOfDay sampleDT) ≠ [] ∧
    (((getCategorySummary [mkExpense 50 .food sampleDT, mkExpense 130 .bills sampleDT]
          sampleDT sampleDT).categories.map (·.amount)).sum
        = (getCategorySummary [mkExpense 50 .food sampleDT, mkExpense 130 .bills sampleDT]
            sampleDT sampleDT).total ∧
      (0 < (getCategorySummary [mkExpense 50 .food sampleDT, mkExpense 130 .bills sampleDT]
            sampleDT sampleDT).total →
        ((getCategorySummary [mkExpense 50 .food sampleDT, mkExpense 130 .bills sampleDT]
            sampleDT sampleDT).categories.map (·.percent)).sum = 100)) :=
  ⟨by decide,
    c2_category_summary [mkExpense 50 .food sampleDT, mkExpense 130 .bills sampleDT]
      sampleDT sampleDT (by decide)⟩

/-- The example budget of C6: daily 50, weekly 300, monthly not configured. -/
def c6Budget : Budget := ⟨"b1", "u1", 50, some 300, none, "USD", sampleDT, sampleDT, true⟩

/-- The example expenses of C6: two expenses today totalling 60. -/
def c6Expenses : List Expense :=
  [mkExpense 35 .food sampleDT, mkExpense 25 .transport ⟨sampleDay, 50000000⟩]

/-- C6: `getAllBudgetStatuses` always computes a daily status, and returns
`null` for the weekly (resp. monthly) status exactly when the budget's
weekly (resp. monthly) limit is absent (limits are positive when present, per
the data model); in the example scenario (daily 50, weekly 300, monthly
absent, 60 spent today) the daily status is `{60, -10, 120, over}` and the
monthly status is `none`, not a zero status. -/
theorem c6_all_statuses (budget : Budget) (expenses : List Expense) (now : DateTime)
    (hw : ∀ w, budget.weeklyLimit = some w → 0 < w)
    (hm : ∀ w, budget.monthlyLimit = some w → 0 < w) :
    ((getAllBudgetStatuses budget expenses now).weekly = none
      ↔ budget.weeklyLimit = none) ∧
    ((getAllBudgetStatuses budget expenses now).monthly = none
      ↔ budget.monthlyLimit = none) ∧
    (getAllBudgetStatuses budget expenses now).daily
      = getBudgetStatus budget.dailyLimit
          (filterExpensesByDateRange expenses (startOfDay now) (endOfDay now)) ∧
    (getAllBudgetStatuses c6Budget c6Expenses sampleDT).daily
      = ⟨60, -10, 120, .over⟩ ∧
    (getAllBudgetStatuses c6Budget c6Expenses sampleDT).monthly = none := by
  refine ⟨?_, ?_, rfl, ?_, rfl⟩
  · unfold getAllBudgetStatuses
    dsimp only
    cases hwl : budget.weeklyLimit with
    | none => simp [truthy]
    | some w =>
      have hwpos := hw w hwl
      simp [truthy, ne_of_gt hwpos]
  · unfold getAllBudgetStatuses
    dsimp only
    cases hml : budget.monthlyLimit with
    | none => simp [truthy]
    | some w =>
      have hmpos := hm w hml
      simp [truthy, ne_of_gt hmpos]
  · have hfil : filterExpensesByDateRange c6Expenses (startOfDay sampleDT)
        (endOfDay sampleDT) = c6Expenses := by decide
    unfold getAllBudgetStatuses
    dsimp only
    rw [hfil]
    unfold c6Budget
    dsimp only
    unfold getBudgetStatus
    rw [if_neg (by norm_num)]
    norm_num [c6Expenses, mkExpense, getHealthStatus, BUDGET_WARNING_THRESHOLD,
      BudgetStatus.mk.injEq]

/-- Witness for C6 at the example scenario. -/
theorem c6_witness :
    (∀ w, c6Budget.weeklyLimit = some w → 0 < w) ∧
    (∀ w, c6Budget.monthlyLimit = some w → 0 < w) ∧
    (((getAllBudgetStatuses c6Budget c6Expenses sampleDT).weekly = none
        ↔ c6Budget.weeklyLimit = none) ∧
      ((getAllBudgetStatuses c6Budget c6Expenses sampleDT).monthly = none
        ↔ c6Budget.monthlyLimit = none) ∧
      (getAllBudgetStatuses c6Budget c6Expenses sampleDT).daily
        = getBudgetStatus c6Budget.dailyLimit
            (filterExpensesByDateRange c6Expenses (startOfDay sampleDT)
              (endOfDay sampleDT)) ∧
      (getAllBudgetStatuses c6Budget c6Expenses sampleDT).daily
        = ⟨60, -10, 120, .over⟩ ∧
      (getAllBudgetStatuses c6Budget c6Expenses sampleDT).monthly = none) := by
  have hw : ∀ w, c6Budget.weeklyLimit = some w → 0 < w := by
    intro w h
    simp [c6Budget] at h
    subst h
    norm_num
  have hm : ∀ w, c6Budget.monthlyLimit = some w → 0 < w := by
    intro w h
    simp [c6Budget] at h
  exact ⟨hw, hm, c6_all_statuses c6Budget c6Expenses sampleDT hw hm⟩
